import Mathlib

/-!
Verification development for `optuna/integration/skopt.py`: the adapter
between optuna's sampler abstraction and the scikit-optimize backend.

The embedding below translates the two classes of the source file:
`SkoptSampler` (joint-search-space computation, relative sampling entry
point, independent fallback) and `_Optimizer` (dimension construction,
history replay, point decoding).  Python floats are embedded as `Rat`
(exact arithmetic on the values the program manipulates); the one place
where float granularity matters — the `np.nextafter` nudge on continuous
upper bounds — is modelled separately on the ordered grid of finite
floating-point values, represented by `Int`.

The `optuna.distributions` module is not part of the source under
verification; its methods (`to_internal_repr`, `to_external_repr`,
`_contains`, `single`) are modelled from the spec's data-model section
(§3), which gives the five distribution kinds, their bounds semantics and
the internal/external conversion signatures.
-/

namespace OptunaSkopt

/-- A framework-native external parameter value: a number or a categorical
choice such as a string. -/
inductive Value where
  | num (x : Rat)
  | str (s : String)
deriving DecidableEq

/-- The five distribution kinds of the spec's data model (§3), plus one
constructor standing for any other distribution kind, which the source's
`isinstance` cascade handles in its `else` branch.
`uniform` is `UniformDistribution` (continuous, closed-open bounds),
`logUniform` is `LogUniformDistribution`, `intUniform` is
`IntUniformDistribution` (inclusive integer range), `discreteUniform` is
`DiscreteUniformDistribution` (DiscreteStepped: low, low+q, ... ≤ high),
`categorical` is `CategoricalDistribution`. -/
inductive Distribution where
  | uniform (low high : Rat)
  | logUniform (low high : Rat)
  | intUniform (low high : Int)
  | discreteUniform (low high q : Rat)
  | categorical (choices : List Value)
  | unsupported (tag : String)
deriving DecidableEq

/-- Modelled from the spec: `to_internal(external_value) -> numeric`
(§3) of `optuna.distributions`, which is not under the verified source.
Numeric distributions keep the numeric value unchanged; a categorical
distribution's internal representation is the index of the choice in the
ordered choice sequence (the only numeric representation compatible with
`to_external(internal_value) -> value` over arbitrary choice values; an
absent choice maps to the out-of-range index `choices.length`). -/
def toInternalRepr (d : Distribution) (v : Value) : Rat :=
  match d, v with
  | .categorical choices, v => ((choices.indexOf v : Nat) : Rat)
  | _, .num x => x
  | _, .str _ => 0

/-- Modelled from the spec: `to_external(internal_value) -> value` (§3)
of `optuna.distributions`.  Numeric distributions return the numeric
value; a categorical distribution returns the choice at the given index. -/
def toExternalRepr (d : Distribution) (x : Rat) : Value :=
  match d with
  | .categorical choices => choices.getD (⌊x⌋.toNat) (.num 0)
  | _ => .num x

/-- Modelled from the spec: `contains(internal_value) -> bool` (§3) of
`optuna.distributions`.  Continuous and log-continuous bounds are
closed-open (§3 "closed-open in practice"), integer-uniform bounds are
inclusive, discrete-stepped values lie in `[low, high]`, and a
categorical internal value must be a valid choice index. -/
def containsInternal (d : Distribution) (x : Rat) : Bool :=
  match d with
  | .uniform low high => decide (low ≤ x ∧ x < high)
  | .logUniform low high => decide (low ≤ x ∧ x < high)
  | .intUniform low high => decide ((low : Rat) ≤ x ∧ x ≤ (high : Rat))
  | .discreteUniform low high _ => decide (low ≤ x ∧ x ≤ high)
  | .categorical choices => decide (0 ≤ x ∧ x < (choices.length : Rat))
  | .unsupported _ => false

/-- Modelled from the spec: `single()` of `optuna.distributions` — a
distribution is single-valued when it has exactly one representable
value (§3, §4.1 "single-valued ... degenerate"). -/
def single (d : Distribution) : Bool :=
  match d with
  | .uniform low high => decide (low = high)
  | .logUniform low high => decide (low = high)
  | .intUniform low high => decide (low = high)
  | .discreteUniform low high _ => decide (low = high)
  | .categorical choices => decide (choices.length = 1)
  | .unsupported _ => false

/-- Whether a distribution is `CategoricalDistribution` (the
`isinstance(distribution, distributions.CategoricalDistribution)` test of
`infer_relative_search_space`). -/
def isCategorical : Distribution → Bool
  | .categorical _ => true
  | _ => false

/-- A search space: the `Dict[str, BaseDistribution]` passed around by the
source, as an association list in insertion order. -/
abbrev SearchSpace := List (String × Distribution)

/-- `sorted(self._search_space.items())`: the items sorted by parameter
name (dict keys are unique, so the tuple comparison never reaches the
second component).  Insertion sort is a stable sort, like Python's. -/
def sortedItems (space : SearchSpace) : SearchSpace :=
  space.insertionSort (fun a b => a.1 ≤ b.1)

/-- `optuna.structs.TrialState`, restricted to the tags the source
inspects. -/
inductive TrialState where
  | running
  | complete
  | pruned
  | failed
deriving DecidableEq

/-- `optuna.structs.FrozenTrial`, restricted to the fields the source
reads: completion state, recorded external parameter values, objective. -/
structure FrozenTrial where
  state : TrialState
  params : List (String × Value)
  value : Option Rat
deriving DecidableEq

/-- `optuna.structs.StudyDirection`. -/
inductive StudyDirection where
  | minimize
  | maximize
deriving DecidableEq

/-- The study view the source reads: optimization direction and trial
history. -/
structure Study where
  direction : StudyDirection
  trials : List FrozenTrial
deriving DecidableEq

/-- A scikit-optimize dimension as constructed by `_Optimizer.__init__`:
`space.Real(low, high)`, `space.Real(low, high, prior='log-uniform')`,
`space.Integer(low, high)`, `space.Categorical(choices)`. -/
inductive Dimension where
  | real (low high : Rat)
  | realLogUniform (low high : Rat)
  | integer (low high : Rat)
  | categorical (choices : List Value)
deriving DecidableEq

/-- Python float floor division `a // b` on exact values. -/
def floorDiv (a b : Rat) : Rat := ((⌊a / b⌋ : Int) : Rat)

/-- One backend interaction of `skopt.Optimizer`: construction with a
dimension list, `tell(xs, ys)`, `ask()`. -/
inductive BackendCall where
  | construct (dims : List Dimension)
  | tell (xs : List (List Value)) (ys : List Rat)
  | ask
deriving DecidableEq

/-- The dimension built for one distribution by the `isinstance` cascade
of `_Optimizer.__init__` (source lines 140-156).  `nextafterDown` is
`np.nextafter(·, float('-inf'))`, kept as a parameter because the exact
float grid is modelled separately (`nextafterNegInf` below); the `else`
branch raises `NotImplementedError`. -/
def buildDimension (nextafterDown : Rat → Rat) (d : Distribution) :
    Except String Dimension :=
  match d with
  | .uniform low high => .ok (.real low (max low (nextafterDown high)))
  | .logUniform low high => .ok (.realLogUniform low (max low (nextafterDown high)))
  | .intUniform low high => .ok (.integer (low : Rat) (high : Rat))
  | .discreteUniform low high q => .ok (.integer 0 (floorDiv (high - low) q))
  | .categorical choices => .ok (.categorical choices)
  | .unsupported tag => .error ("The distribution " ++ tag ++ " is not implemented.")

/-- The `for name, distribution in sorted(...)` loop body of
`_Optimizer.__init__`, appending one dimension per item and propagating
the `NotImplementedError` of an unsupported kind. -/
def buildDimensionsList (nf : Rat → Rat) : SearchSpace → Except String (List Dimension)
  | [] => .ok []
  | p :: rest =>
    match buildDimension nf p.2 with
    | .error e => .error e
    | .ok d =>
      match buildDimensionsList nf rest with
      | .error e => .error e
      | .ok ds => .ok (d :: ds)

/-- The dimension list `_Optimizer.__init__` passes to
`skopt.Optimizer(dimensions, ...)`: one dimension per search-space item,
in lexicographic order of parameter names. -/
def buildDimensions (nf : Rat → Rat) (space : SearchSpace) :
    Except String (List Dimension) :=
  buildDimensionsList nf (sortedItems space)

/-- `_Optimizer._is_compatible` (source lines 193-211): every named
dimension of the space must appear in the trial's recorded parameters,
and the trial's internal value for it must be contained in the
distribution's current bounds. -/
def isCompatible (space : SearchSpace) (trial : FrozenTrial) : Bool :=
  space.all (fun p =>
    match trial.params.lookup p.1 with
    | none => false
    | some v => containsInternal p.2 (toInternalRepr p.2 v))

/-- The per-parameter encoding of
`_Optimizer._complete_trial_to_skopt_observation`: a DiscreteStepped
recorded value is rescaled by `(param_value - low) // q`; every other
value is passed through unchanged. -/
def encodeParamValue (d : Distribution) (v : Value) : Value :=
  match d, v with
  | .discreteUniform low _ q, .num x => .num (floorDiv (x - low) q)
  | _, _ => v

/-- The point vector of
`_Optimizer._complete_trial_to_skopt_observation` (source lines 216-223):
the trial's recorded values in sorted-name order, with the
DiscreteStepped rescale applied. -/
def observationPoint (space : SearchSpace) (trial : FrozenTrial) : List Value :=
  (sortedItems space).map
    (fun p => encodeParamValue p.2 ((trial.params.lookup p.1).getD (.num 0)))

/-- The signed objective of
`_Optimizer._complete_trial_to_skopt_observation` (source lines 225-231):
the trial's value, negated when the study direction is maximize; `none`
models the `assert value is not None` failure. -/
def observationObjective (direction : StudyDirection) (trial : FrozenTrial) :
    Option Rat :=
  trial.value.map (fun v => if direction = StudyDirection.maximize then -v else v)

/-- The trials `_Optimizer.tell` keeps (source lines 166-172): state is
COMPLETE and the trial passes `_is_compatible`; everything else is
skipped by `continue`. -/
def includedTrials (space : SearchSpace) (study : Study) : List FrozenTrial :=
  study.trials.filter
    (fun t => t.state == TrialState.complete && isCompatible space t)

/-- The batch `(xs, ys)` that `_Optimizer.tell` hands to
`self._optimizer.tell(xs, ys)` (source lines 162-178). -/
def tellObservations (space : SearchSpace) (study : Study) :
    List (List Value) × List Rat :=
  ((includedTrials space study).map (observationPoint space),
   (includedTrials space study).map
     (fun t => (observationObjective study.direction t).getD 0))

/-- The backend interactions performed by one call of `_Optimizer.tell`:
straight-line code ending in exactly one `self._optimizer.tell(xs, ys)`,
outside the trial loop, whatever the history contains. -/
def optimizerTellTrace (space : SearchSpace) (study : Study) : List BackendCall :=
  [BackendCall.tell (tellObservations space study).1 (tellObservations space study).2]

/-- The per-parameter decoding of `_Optimizer.ask` (source lines
185-187): a DiscreteStepped backend value is rescaled by
`value * q + low` before conversion; every other value passes through. -/
def decodeParamValue (d : Distribution) (v : Value) : Value :=
  match d, v with
  | .discreteUniform low _ q, .num x => .num (x * q + low)
  | _, _ => v

/-- `_Optimizer.ask` (source lines 180-191) applied to the point the
backend proposed: pairs the sorted parameter names with the positional
values, rescales DiscreteStepped values, and stores
`distribution.to_internal_repr(value)` for each parameter. -/
def askDecode (space : SearchSpace) (proposed : List Value) : List (String × Rat) :=
  ((sortedItems space).zip proposed).map
    (fun pv => (pv.1.1, toInternalRepr pv.1.2 (decodeParamValue pv.1.2 pv.2)))

/-- Follows the spec's words for claim C1, to be compared with `askDecode`
(which is translated from the source): each returned value is the
backend's positional value converted to the distribution's external
representation via the internal-to-external conversion, the
DiscreteStepped rescale `value * step + low` applied first; a
non-numeric backend value is already external and passes through. -/
def askDecodeExternal (space : SearchSpace) (proposed : List Value) :
    List (String × Value) :=
  ((sortedItems space).zip proposed).map
    (fun pv =>
      (pv.1.1,
        match decodeParamValue pv.1.2 pv.2 with
        | .num x => toExternalRepr pv.1.2 x
        | v => v))

/-- `SkoptSampler.infer_relative_search_space` (source lines 91-106):
keep each item of the product search space unless it is single-valued
and not categorical. -/
def inferRelativeSearchSpace (productSpace : SearchSpace) : SearchSpace :=
  productSpace.filter (fun p => !(single p.2 && !isCategorical p.2))

/-- `SkoptSampler.sample_relative` (source lines 108-116) together with
the backend interactions it triggers: an empty space returns an empty
mapping at once; otherwise `_Optimizer` is constructed (building the
dimensions, then calling `skopt.Optimizer`), `tell` replays the history,
and `ask` decodes the point `proposed` that the backend returns. -/
def sampleRelative (nf : Rat → Rat) (space : SearchSpace) (study : Study)
    (proposed : List Value) :
    Except String (List (String × Rat) × List BackendCall) :=
  if space.isEmpty then .ok ([], [])
  else
    match buildDimensions nf space with
    | .error e => .error e
    | .ok dims =>
      .ok (askDecode space proposed,
        BackendCall.construct dims :: optimizerTellTrace space study ++ [BackendCall.ask])

/-- Float-grid model for the continuous upper-bound nudge of
`_Optimizer.__init__` (source lines 141 and 144): the finite values of a
floating-point type form a linear order in which
`np.nextafter(x, float('-inf'))` is the immediate predecessor, so the
grid is represented by `Int` and `nextafter` toward `-inf` by the
predecessor. -/
def nextafterNegInf (x : Int) : Int := x - 1

/-- `max(distribution.low, np.nextafter(distribution.high, float('-inf')))`
on the float grid: the upper bound given to `space.Real`. -/
def realDimensionHigh (low high : Int) : Int := max low (nextafterNegInf high)

/-! ## Helper lemmas -/

theorem sortedItems_perm (space : SearchSpace) : (sortedItems space).Perm space :=
  List.perm_insertionSort _ space

theorem isCompatible_iff (space : SearchSpace) (t : FrozenTrial) :
    isCompatible space t = true ↔
      ∀ p ∈ space, ∃ v, t.params.lookup p.1 = some v ∧
        containsInternal p.2 (toInternalRepr p.2 v) = true := by
  simp only [isCompatible, List.all_eq_true]
  refine forall₂_congr fun p _ => ?_
  cases h : t.params.lookup p.1 <;> simp [h]

theorem buildDimensionsList_length (nf : Rat → Rat) :
    ∀ (l : SearchSpace) (dims : List Dimension),
      buildDimensionsList nf l = .ok dims → dims.length = l.length
  | [], dims => by
    intro h
    simp only [buildDimensionsList] at h
    cases h
    rfl
  | p :: rest, dims => by
    intro h
    simp only [buildDimensionsList] at h
    cases hb : buildDimension nf p.2 <;> rw [hb] at h
    · cases h
    · cases hr : buildDimensionsList nf rest <;> rw [hr] at h
      · cases h
      · cases h
        simpa using buildDimensionsList_length nf rest _ hr

theorem buildDimensionsList_getElem (nf : Rat → Rat) :
    ∀ (l : SearchSpace) (dims : List Dimension),
      buildDimensionsList nf l = .ok dims →
      ∀ i : Nat, dims[i]?.map Except.ok = (l[i]?).map (fun p => buildDimension nf p.2)
  | [], dims => by
    intro h i
    simp only [buildDimensionsList] at h
    cases h
    simp
  | p :: rest, dims => by
    intro h i
    simp only [buildDimensionsList] at h
    cases hb : buildDimension nf p.2 <;> rw [hb] at h
    · cases h
    · cases hr : buildDimensionsList nf rest <;> rw [hr] at h
      · cases h
      · cases h
        cases i with
        | zero => simp [hb]
        | succ j => simpa using buildDimensionsList_getElem nf rest _ hr j

theorem buildDimensionsList_unsupported (nf : Rat → Rat) :
    ∀ (l : SearchSpace) (name tag : String),
      (name, Distribution.unsupported tag) ∈ l →
      (buildDimensionsList nf l).isOk = false
  | [], name, tag, h => by simp at h
  | p :: rest, name, tag, h => by
    rcases List.mem_cons.mp h with h1 | h2
    · simp [buildDimensionsList, ← h1, buildDimension, Except.isOk, Except.toBool]
    · simp only [buildDimensionsList]
      cases hb : buildDimension nf p.2
      · rfl
      · have ih := buildDimensionsList_unsupported nf rest name tag h2
        cases hr : buildDimensionsList nf rest
        · rfl
        · rw [hr] at ih
          simp [Except.isOk, Except.toBool] at ih

theorem map_zip_getElem {α β γ : Type} (f : α × β → γ) :
    ∀ (A : List α) (B : List β) (i : Nat),
      ((A.zip B).map f)[i]? =
        (A[i]?).bind (fun a => (B[i]?).map (fun b => f (a, b)))
  | [], _, _ => by simp
  | _ :: _, [], i => by cases i <;> simp
  | _ :: _, _ :: _, 0 => by simp
  | a :: A, b :: B, (i + 1) => by
    simpa using map_zip_getElem f A B i

theorem map_fst_fst_zip {α β γ : Type} :
    ∀ (A : List (α × β)) (B : List γ), A.length ≤ B.length →
      (A.zip B).map (fun pv => pv.1.1) = A.map Prod.fst
  | [], _, _ => by simp
  | a :: A, [], h => by simp at h
  | a :: A, b :: B, h => by
    simpa using map_fst_fst_zip A B (by simpa using h)

/-! ## Claim theorems -/

/-- C1 (corrected), counterexample: the claim says `propose()` returns the
backend's positional value converted to the distribution's external
representation via the internal-to-external conversion; the source's
`_Optimizer.ask` instead stores `distribution.to_internal_repr(value)`,
the external-to-internal conversion.  For a categorical distribution with
choices `[2, 0, 1]` and backend-proposed choice `2`, the code returns the
internal index `0`, while the claimed external conversion yields `1` —
so the claimed equality between `askDecode` (source) and
`askDecodeExternal` (spec's words) fails at this input. -/
theorem c1_counterexample_ask_value_not_external :
    ¬ ((askDecode [("x", Distribution.categorical [.num 2, .num 0, .num 1])]
          [.num 2]).map (fun p => (p.1, Value.num p.2))
        = askDecodeExternal [("x", Distribution.categorical [.num 2, .num 0, .num 1])]
          [.num 2]) := by
  simp [askDecode, askDecodeExternal, sortedItems, toInternalRepr, toExternalRepr,
    decodeParamValue, List.indexOf, List.findIdx, List.findIdx.go]

/-- C1 (amended): for every search space and backend-proposed point, the
mapping returned by `ask` pairs the i-th parameter name in sorted order
with the backend's i-th positional value converted via the
distribution's external-to-internal conversion (`to_internal_repr`),
i.e. the returned values are internal representations, with the
DiscreteStepped rescale `value * step + low` applied first. -/
theorem c1_amended_ask_decodes_to_internal_repr (space : SearchSpace)
    (proposed : List Value) (i : Nat) :
    (askDecode space proposed)[i]? =
      ((sortedItems space)[i]?).bind (fun p =>
        (proposed[i]?).map
          (fun v => (p.1, toInternalRepr p.2 (decodeParamValue p.2 v)))) := by
  have h := map_zip_getElem
    (fun pv : (String × Distribution) × Value =>
      (pv.1.1, toInternalRepr pv.1.2 (decodeParamValue pv.1.2 pv.2)))
    (sortedItems space) proposed i
  simpa [askDecode] using h

/-- C2: for every continuous or log-continuous distribution with
`low < high` on the float grid, the upper bound
`max(low, nextafter(high, -inf))` handed to `space.Real` is strictly less
than `high`, at least `low`, equal to the largest representable value
below `high`, and equal to `low` when `high` is one representable step
above `low`; and `buildDimension` constructs exactly this bound shape
for both continuous kinds. -/
theorem c2_real_dimension_upper_bound (low high : Int) (h : low < high) :
    realDimensionHigh low high < high
    ∧ low ≤ realDimensionHigh low high
    ∧ realDimensionHigh low high = nextafterNegInf high
    ∧ (∀ y : Int, y < high → y ≤ realDimensionHigh low high)
    ∧ (high = low + 1 → realDimensionHigh low high = low)
    ∧ ∀ (lo hi : Rat) (nf : Rat → Rat),
        buildDimension nf (Distribution.uniform lo hi)
            = .ok (.real lo (max lo (nf hi)))
        ∧ buildDimension nf (Distribution.logUniform lo hi)
            = .ok (.realLogUniform lo (max lo (nf hi))) := by
  have hm : realDimensionHigh low high = high - 1 := by
    unfold realDimensionHigh nextafterNegInf
    exact max_eq_right (by omega)
  refine ⟨by omega, by omega, ?_, fun y hy => by omega, fun hy => by omega,
    fun lo hi nf => ⟨rfl, rfl⟩⟩
  unfold nextafterNegInf
  omega

/-- C2 witness at `low = 0`, `high = 1` (the one-representable-step case,
where the clamp to `low` fires). -/
theorem c2_witness :
    realDimensionHigh 0 1 < 1 ∧ 0 ≤ realDimensionHigh 0 1
    ∧ realDimensionHigh 0 1 = nextafterNegInf 1 ∧ realDimensionHigh 0 1 = 0 := by
  have h := c2_real_dimension_upper_bound 0 1 (by decide)
  exact ⟨h.1, h.2.1, h.2.2.1, h.2.2.2.2.1 rfl⟩

/-- C3: a trial contributes an observation to the backend iff it is in the
history, its state is COMPLETE, and every named dimension of the space is
present in its recorded parameters with an internal value contained in
the distribution's current bounds; and two histories with the same
included subset and direction feed the backend identical observations. -/
theorem c3_replay_filters_compatible_complete (space : SearchSpace)
    (study : Study) (t : FrozenTrial) :
    (t ∈ includedTrials space study ↔
      t ∈ study.trials ∧ t.state = TrialState.complete ∧
        ∀ p ∈ space, ∃ v, t.params.lookup p.1 = some v ∧
          containsInternal p.2 (toInternalRepr p.2 v) = true)
    ∧ (∀ s1 s2 : Study, s1.direction = s2.direction →
        includedTrials space s1 = includedTrials space s2 →
        tellObservations space s1 = tellObservations space s2) := by
  constructor
  · rw [includedTrials, List.mem_filter]
    simp only [Bool.and_eq_true, beq_iff_eq, isCompatible_iff]
  · intro s1 s2 hd hinc
    unfold tellObservations
    rw [hinc, hd]

/-- C3 witness: a one-parameter space, a compatible completed trial, and a
second history extended by a RUNNING trial; the included subsets match so
the observations match, and the completed trial is included. -/
theorem c3_witness :
    tellObservations [("x", Distribution.uniform 0 5)]
        ⟨StudyDirection.maximize, [⟨TrialState.complete, [("x", Value.num 1)], some 2⟩]⟩
      = tellObservations [("x", Distribution.uniform 0 5)]
        ⟨StudyDirection.maximize, [⟨TrialState.complete, [("x", Value.num 1)], some 2⟩,
          ⟨TrialState.running, [], none⟩]⟩
    ∧ ⟨TrialState.complete, [("x", Value.num 1)], some 2⟩
        ∈ includedTrials [("x", Distribution.uniform 0 5)]
          ⟨StudyDirection.maximize, [⟨TrialState.complete, [("x", Value.num 1)], some 2⟩]⟩ := by
  have h := c3_replay_filters_compatible_complete [("x", Distribution.uniform 0 5)]
    ⟨StudyDirection.maximize, [⟨TrialState.complete, [("x", Value.num 1)], some 2⟩]⟩
    ⟨TrialState.complete, [("x", Value.num 1)], some 2⟩
  refine ⟨h.2 _ _ rfl ?_, h.1.mpr ⟨by simp, rfl, ?_⟩⟩
  · simp [includedTrials, isCompatible, containsInternal, toInternalRepr, List.lookup]
  · intro p hp
    rcases List.mem_singleton.mp hp with rfl
    refine ⟨Value.num 1, by simp [List.lookup], ?_⟩
    simp [containsInternal, toInternalRepr]

/-- C4: for `DiscreteStepped{low, high, step}`, replay encodes a recorded
external value `v` as `(v - low) // step` and `ask` rescales a backend
value `b` to `b * step + low` (then converts it, which is the identity
for this numeric kind). -/
theorem c4_discrete_stepped_encode_decode (low high q v b : Rat)
    (t : FrozenTrial) (h : t.params.lookup "x" = some (Value.num v)) :
    observationPoint [("x", Distribution.discreteUniform low high q)] t
      = [Value.num (floorDiv (v - low) q)]
    ∧ askDecode [("x", Distribution.discreteUniform low high q)] [Value.num b]
      = [("x", b * q + low)] := by
  constructor
  · simp [observationPoint, sortedItems, List.insertionSort, List.orderedInsert,
      encodeParamValue, h]
  · simp [askDecode, sortedItems, List.insertionSort, List.orderedInsert,
      decodeParamValue, toInternalRepr]

/-- C4 witness for the spec scenario `low = 0`, `high = 10`, `step = 2`:
recorded external value 6 encodes to backend value 3; backend value 2
decodes to external value 4. -/
theorem c4_witness :
    observationPoint [("x", Distribution.discreteUniform 0 10 2)]
        ⟨TrialState.complete, [("x", Value.num 6)], some 1⟩ = [Value.num 3]
    ∧ askDecode [("x", Distribution.discreteUniform 0 10 2)] [Value.num 2]
        = [("x", (4 : Rat))] := by
  have h := c4_discrete_stepped_encode_decode 0 10 2 6 2
    ⟨TrialState.complete, [("x", Value.num 6)], some 1⟩ (by simp [List.lookup])
  refine ⟨?_, ?_⟩
  · rw [h.1]
    norm_num [floorDiv]
  · rw [h.2]
    norm_num

/-- C5: the objective fed to the backend is the trial's recorded objective
under MINIMIZE and its negation under MAXIMIZE; for a completed trial it
is what `tell`'s batch contains. -/
theorem c5_objective_sign_flip (d : StudyDirection) (t : FrozenTrial)
    (v : Rat) (h : t.value = some v) :
    observationObjective d t = some (if d = StudyDirection.maximize then -v else v)
    ∧ observationObjective StudyDirection.maximize t = some (-v)
    ∧ observationObjective StudyDirection.minimize t = some v
    ∧ (t.state = TrialState.complete →
        (tellObservations [] (Study.mk StudyDirection.maximize [t])).2 = [-v]) := by
  refine ⟨by simp [observationObjective, h], by simp [observationObjective, h],
    by simp [observationObjective, h], fun hst => ?_⟩
  simp [tellObservations, includedTrials, isCompatible, hst, observationObjective, h]

/-- C5 witness for the spec scenario: direction MAXIMIZE, one completed
trial with objective 5.0; the backend receives -5.0. -/
theorem c5_witness :
    observationObjective StudyDirection.maximize
        ⟨TrialState.complete, [], some 5⟩ = some (-5)
    ∧ (tellObservations []
        ⟨StudyDirection.maximize, [⟨TrialState.complete, [], some 5⟩]⟩).2 = [-5] := by
  have h := c5_objective_sign_flip StudyDirection.maximize
    ⟨TrialState.complete, [], some 5⟩ 5 rfl
  exact ⟨h.2.1, h.2.2.2 rfl⟩

/-- C6: within one converter instance, dimension construction, every
replayed observation point, and the decoding of the proposed point all
traverse the identical positional order — the items sorted
lexicographically by parameter name (`sortedItems`, a permutation of
the space): the sorted name list is sorted, the i-th slot of every
observation point is the encoding of the i-th sorted item, `ask`'s keys
are exactly the sorted names in order (and `c1`'s decode law is
positional over the same order), and the i-th built dimension is the
dimension of the i-th sorted item. -/
theorem c6_dimension_order_lexicographic (space : SearchSpace)
    (trial : FrozenTrial) (proposed : List Value)
    (h : proposed.length = (sortedItems space).length) :
    List.Sorted (fun a b => a ≤ b) ((sortedItems space).map Prod.fst)
    ∧ (sortedItems space).Perm space
    ∧ (∀ i : Nat, (observationPoint space trial)[i]? =
        ((sortedItems space)[i]?).map
          (fun p => encodeParamValue p.2 ((trial.params.lookup p.1).getD (.num 0))))
    ∧ (askDecode space proposed).map Prod.fst = (sortedItems space).map Prod.fst
    ∧ ∀ (nf : Rat → Rat) (dims : List Dimension),
        buildDimensions nf space = .ok dims →
        ∀ i : Nat, dims[i]?.map Except.ok =
          ((sortedItems space)[i]?).map (fun p => buildDimension nf p.2) := by
  refine ⟨?_, sortedItems_perm space, fun i => by simp [observationPoint], ?_, ?_⟩
  · haveI : IsTotal (String × Distribution) (fun a b => a.1 ≤ b.1) :=
      ⟨fun a b => le_total a.1 b.1⟩
    haveI : IsTrans (String × Distribution) (fun a b => a.1 ≤ b.1) :=
      ⟨fun _ _ _ hab hbc => le_trans hab hbc⟩
    exact List.pairwise_map.mpr
      (List.sorted_insertionSort (fun a b : String × Distribution => a.1 ≤ b.1) space)
  · have hz := map_fst_fst_zip (sortedItems space) proposed (le_of_eq h.symm)
    simpa [askDecode, List.map_map, Function.comp] using hz
  · intro nf dims hok
    exact buildDimensionsList_getElem nf (sortedItems space) dims hok

/-- C6 witness on a two-parameter space given in anti-lexicographic
insertion order, with a matching-length proposed point; the pointwise
observation-order law is instantiated at position 0. -/
theorem c6_witness :
    List.Sorted (fun a b => a ≤ b)
      ((sortedItems [("b", Distribution.uniform 0 1),
        ("a", Distribution.intUniform 0 3)]).map Prod.fst)
    ∧ (askDecode [("b", Distribution.uniform 0 1),
        ("a", Distribution.intUniform 0 3)] [Value.num 0, Value.num 0]).map Prod.fst
      = (sortedItems [("b", Distribution.uniform 0 1),
        ("a", Distribution.intUniform 0 3)]).map Prod.fst
    ∧ (observationPoint [("b", Distribution.uniform 0 1),
        ("a", Distribution.intUniform 0 3)] ⟨TrialState.complete, [], none⟩)[0]?
      = ((sortedItems [("b", Distribution.uniform 0 1),
          ("a", Distribution.intUniform 0 3)])[0]?).map
          (fun p => encodeParamValue p.2
            (((⟨TrialState.complete, [], none⟩ : FrozenTrial).params.lookup p.1).getD
              (.num 0))) := by
  have h := c6_dimension_order_lexicographic
    [("b", Distribution.uniform 0 1), ("a", Distribution.intUniform 0 3)]
    ⟨TrialState.complete, [], none⟩ [Value.num 0, Value.num 0]
    (by rw [sortedItems, List.length_insertionSort]; rfl)
  exact ⟨h.1, h.2.2.2.1, h.2.2.1 0⟩

/-- C7: the joint search space keeps exactly those items of the product
search space that are categorical or not single-valued; in particular a
single-valued non-categorical distribution is dropped while a
single-valued categorical distribution is retained. -/
theorem c7_joint_space_single_valued_filter (productSpace : SearchSpace)
    (p : String × Distribution) :
    (p ∈ inferRelativeSearchSpace productSpace ↔
      p ∈ productSpace ∧ (isCategorical p.2 = true ∨ single p.2 = false))
    ∧ inferRelativeSearchSpace
        [("a", Distribution.uniform 1 1), ("b", Distribution.categorical [.num 3])]
      = [("b", Distribution.categorical [.num 3])] := by
  constructor
  · rw [inferRelativeSearchSpace, List.mem_filter]
    cases hs : single p.2 <;> cases hc : isCategorical p.2 <;> simp [hs, hc]
  · simp [inferRelativeSearchSpace, single, isCategorical]

/-- C8: with an empty search space, `sample_relative` returns an empty
mapping and the backend-interaction trace is empty — no converter is
constructed, no observations are ingested, no point is requested. -/
theorem c8_empty_space_no_backend_interaction (nf : Rat → Rat)
    (study : Study) (proposed : List Value) :
    sampleRelative nf [] study proposed = .ok ([], []) := rfl

/-- C9: a search space containing a parameter of an unsupported
distribution kind makes converter construction fail with the
Not-Implemented error; no dimension list is built that silently omits the
parameter. -/
theorem c9_unsupported_distribution_errors (nf : Rat → Rat)
    (space : SearchSpace) (name tag : String)
    (h : (name, Distribution.unsupported tag) ∈ space) :
    (buildDimensions nf space).isOk = false := by
  have hmem : (name, Distribution.unsupported tag) ∈ sortedItems space :=
    ((sortedItems_perm space).mem_iff).mpr h
  exact buildDimensionsList_unsupported nf (sortedItems space) name tag hmem

/-- C9 witness on a one-parameter space whose distribution kind is
unsupported. -/
theorem c9_witness :
    (buildDimensions (fun x => x)
      [("y", Distribution.unsupported "GammaDistribution")]).isOk = false :=
  c9_unsupported_distribution_errors (fun x => x)
    [("y", Distribution.unsupported "GammaDistribution")] "y" "GammaDistribution"
    (by simp)

/-- C10: one call of `_Optimizer.tell` performs exactly one backend
`tell`, whatever the history; when no trial is completed and compatible,
the backend is told an empty batch rather than not being called. -/
theorem c10_tell_called_once (space : SearchSpace) (study : Study) :
    (optimizerTellTrace space study).length = 1
    ∧ (∃ xs ys, optimizerTellTrace space study = [BackendCall.tell xs ys])
    ∧ (includedTrials space study = [] →
        optimizerTellTrace space study = [BackendCall.tell [] []]) := by
  refine ⟨rfl, ⟨_, _, rfl⟩, fun hinc => ?_⟩
  simp [optimizerTellTrace, tellObservations, hinc]

/-- C10 witness: a history holding only a RUNNING trial still produces
exactly one backend `tell`, with an empty batch. -/
theorem c10_witness :
    optimizerTellTrace [] ⟨StudyDirection.minimize, [⟨TrialState.running, [], none⟩]⟩
      = [BackendCall.tell [] []] := by
  have h := c10_tell_called_once []
    ⟨StudyDirection.minimize, [⟨TrialState.running, [], none⟩]⟩
  exact h.2.2 (by simp [includedTrials])

end OptunaSkopt
